import Mathlib

/-!
Verification of the odaexport utility (export-da-insights.js, ociUtils.js)
against its natural-language specification.

JavaScript strings are modelled as lists of Unicode scalar values
(`List Char`); JS string primitives used by the source (`includes`,
`toUpperCase`, `replace`, `.length`) are modelled below, faithful to their
ECMAScript behavior on the values the program handles.
-/

/-- A JavaScript string, modelled as its list of Unicode scalar values. -/
abbrev JSStr := List Char

/-- Convert a Lean string literal into the model type. -/
def str (s : String) : JSStr := s.toList

/-- Modelled from ECMAScript `String.prototype.toUpperCase` restricted to
ASCII (every string this program classifies or dispatches on is ASCII):
a lowercase ASCII letter maps to its uppercase form, all else unchanged. -/
def jsToUpperChar (c : Char) : Char :=
  if 97 ≤ c.toNat ∧ c.toNat ≤ 122 then Char.ofNat (c.toNat - 32) else c

/-- `s.toUpperCase()` on the model. -/
def jsToUpper (s : JSStr) : JSStr := s.map jsToUpperChar

/-- ASCII lowercase of one character (used to model Node's
case-insensitive header names): an uppercase ASCII letter maps to its
lowercase form, all else unchanged. -/
def jsToLowerChar (c : Char) : Char :=
  if 65 ≤ c.toNat ∧ c.toNat ≤ 90 then Char.ofNat (c.toNat + 32) else c

/-- ASCII lowercase of a string. -/
def jsToLower (s : JSStr) : JSStr := s.map jsToLowerChar

/-- `needle` occurs at the start of `hay` (helper for `jsIncludes`). -/
def isStartOf (needle hay : JSStr) : Bool :=
  match needle, hay with
  | [], _ => true
  | _ :: _, [] => false
  | a :: as, b :: bs => a = b && isStartOf as bs

/-- Modelled from ECMAScript `String.prototype.includes`: `needle` occurs
as a contiguous substring of `hay` (the empty string occurs in every
string, as in JS). -/
def jsIncludes (hay needle : JSStr) : Bool :=
  match hay with
  | [] => isStartOf needle []
  | _ :: t => isStartOf needle hay || jsIncludes t needle

/-- `s.replace(pat, repl)` for string `pat`: replaces the FIRST occurrence
of `pat` only, as ECMAScript does; returns `s` unchanged when `pat` does
not occur. -/
def jsReplaceFirst (s pat repl : JSStr) : JSStr :=
  match s with
  | [] => if isStartOf pat [] then repl else []
  | c :: rest =>
    if isStartOf pat (c :: rest) then repl ++ (c :: rest).drop pat.length
    else c :: jsReplaceFirst rest pat repl

/-- Number of UTF-16 code units of the string: this is what JS `.length`
returns (code points above U+FFFF count as two). -/
def jsStrLength (s : JSStr) : Nat :=
  (s.map (fun c => if c.toNat < 0x10000 then 1 else 2)).sum

/-- Number of bytes of the UTF-8 encoding of the string. -/
def utf8ByteLength (s : JSStr) : Nat :=
  (s.map (fun c =>
    if c.toNat < 0x80 then 1
    else if c.toNat < 0x800 then 2
    else if c.toNat < 0x10000 then 3
    else 4)).sum

/-!
## Poller status classification (export-da-insights.js)

`EXPORTDAINSIGHTS.activeStatuses` is the string `'SUBMITTED IN_PROGRESS'`
and `rejectIfRequestActive` tests
`EXPORTDAINSIGHTS.activeStatuses.includes(result.status.toUpperCase())`.
-/

/-- `EXPORTDAINSIGHTS.activeStatuses` from the source: a single
space-separated string, not a list. -/
def activeStatuses : JSStr := str "SUBMITTED IN_PROGRESS"

/-- `EXPORTDAINSIGHTS.maxStatusRetries` from the source. -/
def maxStatusRetries : Nat := 20

/-- The classification performed by `rejectIfRequestActive`: the task is
considered active (promise rejected, poll retried) exactly when
`activeStatuses.includes(status.toUpperCase())` is true. -/
def isActive (status : JSStr) : Bool :=
  jsIncludes activeStatuses (jsToUpper status)

/-- The four arms of the `switch (finalStatus.toUpperCase())` in `run`. -/
inductive DispatchCase where
  | succeeded
  | failed
  | noData
  | stillRunning
  deriving DecidableEq, Repr

/-- The dispatch `run` performs on the final task status. -/
def dispatchFinalStatus (s : JSStr) : DispatchCase :=
  if jsToUpper s = str "EXPORT_SUCCEEDED" then DispatchCase.succeeded
  else if jsToUpper s = str "EXPORT_FAILED" then DispatchCase.failed
  else if jsToUpper s = str "NO_DATA" then DispatchCase.noData
  else DispatchCase.stillRunning

/-!
## General lemmas about the string model
-/

theorem toNat_ofNat_valid (n : Nat) (h : n.isValidChar) : (Char.ofNat n).toNat = n := by
  simp [Char.ofNat, h, Char.ofNatAux, Char.toNat, UInt32.toNat, BitVec.toNat_ofNatLt]

theorem jsToUpperChar_idem (c : Char) : jsToUpperChar (jsToUpperChar c) = jsToUpperChar c := by
  unfold jsToUpperChar
  by_cases h : 97 ≤ c.toNat ∧ c.toNat ≤ 122
  · have hv : (c.toNat - 32).isValidChar := by
      left; omega
    have h2 : (Char.ofNat (c.toNat - 32)).toNat = c.toNat - 32 := toNat_ofNat_valid _ hv
    have h3 : ¬ (97 ≤ (Char.ofNat (c.toNat - 32)).toNat ∧
        (Char.ofNat (c.toNat - 32)).toNat ≤ 122) := by
      omega
    simp [h, h3]
  · simp [h]

theorem jsToUpper_idem (s : JSStr) : jsToUpper (jsToUpper s) = jsToUpper s := by
  simp [jsToUpper, Function.comp, jsToUpperChar_idem]

theorem isStartOf_iff (needle hay : JSStr) :
    isStartOf needle hay = true ↔ ∃ rest, hay = needle ++ rest := by
  induction needle generalizing hay with
  | nil =>
    simp [isStartOf]
  | cons a as ih =>
    cases hay with
    | nil =>
      simp [isStartOf]
    | cons b bs =>
      simp only [isStartOf, Bool.and_eq_true, decide_eq_true_eq, ih]
      constructor
      · rintro ⟨rfl, rest, rfl⟩
        exact ⟨rest, rfl⟩
      · rintro ⟨rest, h⟩
        injection h with h1 h2
        exact ⟨h1.symm, rest, h2⟩

theorem jsIncludes_iff (hay needle : JSStr) :
    jsIncludes hay needle = true ↔ ∃ pre post, hay = pre ++ needle ++ post := by
  induction hay with
  | nil =>
    cases needle with
    | nil =>
      simp only [jsIncludes, isStartOf, List.nil_append]
      exact iff_of_true trivial ⟨[], [], rfl⟩
    | cons n ns =>
      simp only [jsIncludes, isStartOf]
      constructor
      · intro h
        exact absurd h (by simp)
      · rintro ⟨pre, post, h⟩
        exact absurd h (by cases pre <;> simp)
  | cons c t ih =>
    simp only [jsIncludes, Bool.or_eq_true, isStartOf_iff, ih]
    constructor
    · rintro (⟨rest, h⟩ | ⟨pre, post, h⟩)
      · exact ⟨[], rest, by simpa using h⟩
      · exact ⟨c :: pre, post, by simp [h]⟩
    · rintro ⟨pre, post, h⟩
      cases pre with
      | nil =>
        left
        exact ⟨post, by simpa using h⟩
      | cons p ps =>
        right
        injection h with h1 h2
        exact ⟨ps, post, h2⟩

/-!
## Poller retry loop (export-da-insights.js, waitForTaskCompletion)

`waitForTaskCompletion` drives the @lifeomic/attempt `retry` helper with
the options `delay: 200, factor: 3, maxAttempts: EXPORTDAINSIGHTS.maxStatusRetries,
maxDelay: 60000`, whose `handleError` calls `failureCallback` (printing a
message naming the export ID and exiting the process) once
`attemptsRemaining < 1`. The retry helper itself is an external
dependency; its loop is modelled here from its documented semantics:
attempt the operation, and while it fails with attempts remaining, sleep
`min(delay * factor ^ k, maxDelay)` before the (k+1)-th retry.
-/

/-- The options record handed to the retry helper. -/
structure RetryOptions where
  delay : Nat
  factor : Nat
  maxAttempts : Nat
  maxDelay : Nat
  deriving DecidableEq, Repr

/-- The options `waitForTaskCompletion` passes to `retry`. -/
def waitOptions : RetryOptions :=
  { delay := 200, factor := 3, maxAttempts := maxStatusRetries, maxDelay := 60000 }

/-- Modelled from @lifeomic/attempt: the sleep before the (k+1)-th retry,
`k` counted from 0. -/
def attemptDelay (o : RetryOptions) (k : Nat) : Nat :=
  min (o.delay * o.factor ^ k) o.maxDelay

/-- The poller's concrete backoff schedule. -/
def backoffDelay (k : Nat) : Nat := attemptDelay waitOptions k

/-- Outcome of the polling loop, carrying how many status fetches were
issued: either the task left the active states and the poll resolved with
the task resource seen by the last fetch, or the attempt budget ran out
while active and `handleError` terminated the process fatally. -/
inductive PollOutcome where
  | completed (fetches : Nat)
  | fatalExit (fetches : Nat)
  deriving DecidableEq, Repr

/-- The retry loop of `waitForTaskCompletion`: `active k` tells whether the
(k+1)-th status fetch observes an active status (so the attempt rejects
and is retried); `fuel` is the number of attempts remaining out of
`maxAttempts`. When the last allowed attempt still observes an active
status, `handleError` sees `attemptsRemaining < 1` and calls
`failureCallback`, which exits the process. -/
def runPoll (active : Nat → Bool) : Nat → Nat → PollOutcome
  | 0, fetched => PollOutcome.fatalExit fetched
  | fuel + 1, fetched =>
    if active fetched then
      if fuel = 0 then PollOutcome.fatalExit (fetched + 1)
      else runPoll active fuel (fetched + 1)
    else PollOutcome.completed (fetched + 1)

/-- `waitForTaskCompletion` as a function of which fetches observe an
active status. -/
def waitForTaskCompletion (active : Nat → Bool) : PollOutcome :=
  runPoll active waitOptions.maxAttempts 0

/-- The fatal message printed when the attempt budget is exhausted, from
`waitForTaskCompletion`'s `handleError`. -/
def fatalStillRunningMessage (exportId : JSStr) : JSStr :=
  str "Export process is still running.\nYou will have to download the exported data for request ID "
    ++ exportId ++ str " at a later time."

theorem runPoll_all_active (active : Nat → Bool) :
    ∀ fuel fetched, (∀ k, fetched ≤ k → k < fetched + fuel → active k = true) → 0 < fuel →
    runPoll active fuel fetched = PollOutcome.fatalExit (fetched + fuel) := by
  intro fuel
  induction fuel with
  | zero =>
    intro fetched _ h0
    exact absurd h0 (by omega)
  | succ f ih =>
    intro fetched h _
    have ha : active fetched = true := h fetched le_rfl (by omega)
    cases Nat.eq_zero_or_pos f with
    | inl hz =>
      subst hz
      simp [runPoll, ha]
    | inr hp =>
      have hne : f ≠ 0 := by omega
      have hrec := ih (fetched + 1) (fun k hk1 hk2 => h k (by omega) (by omega)) hp
      have harith : fetched + 1 + f = fetched + (f + 1) := by omega
      rw [harith] at hrec
      simp [runPoll, ha, hne, hrec]

/-!
## Download loop (export-da-insights.js, writeExportedData)
-/

/-- Record of one run of `writeExportedData`: which file downloads were
attempted (in order) and, if one of them rejected, which one. -/
structure DownloadRun where
  attempted : List JSStr
  failed : Option JSStr
  deriving DecidableEq, Repr

/-- `writeExportedData` from export-da-insights.js. `dl f` says whether
downloading file `f` (via `promisifiedWriteZipResponse`) succeeds. The
source's `for` loop body ends in
`return ociUtils.promisifiedWriteZipResponse(...)`, so the function
returns during the FIRST iteration: with a non-empty file list exactly
one download is ever attempted. -/
def writeExportedData (dl : JSStr → Bool) (fileNames : List JSStr) : DownloadRun :=
  match fileNames with
  | [] => { attempted := [], failed := none }
  | f :: _ =>
    if dl f then { attempted := [f], failed := none }
    else { attempted := [f], failed := some f }

/-!
## Claim theorems: poller classification, backoff, dispatch, download loop
-/

/-- Claim C2 (corrected), counterexample: the status string `PROGRESS` is
neither `SUBMITTED` nor `IN_PROGRESS` (even case-insensitively), yet the
poller classifies it as active, because `activeStatuses` is the single
string `'SUBMITTED IN_PROGRESS'` and `String.prototype.includes` is a
substring test. -/
theorem C2_counterexample :
    isActive (str "PROGRESS") = true ∧
    jsToUpper (str "PROGRESS") ≠ str "SUBMITTED" ∧
    jsToUpper (str "PROGRESS") ≠ str "IN_PROGRESS" := by
  decide

/-- Claim C2 (amended): the poller classifies a status as active (retry)
exactly when its uppercased form occurs as a contiguous substring of
`'SUBMITTED IN_PROGRESS'`; every status whose uppercase is not such a
substring (in particular every genuinely different status value, such as
`EXPORT_SUCCEEDED`) is terminal. `SUBMITTED` and `IN_PROGRESS` are active
case-insensitively, but so are fragments such as `PROGRESS` or the empty
string. -/
theorem C2_active_iff_substring (s : JSStr) :
    isActive s = true ↔ ∃ pre post, activeStatuses = pre ++ jsToUpper s ++ post :=
  jsIncludes_iff activeStatuses (jsToUpper s)

/-- Claim C3: the poller's backoff delay starts at 200, multiplies by 3
after each attempt, is capped at 60000; with at most
`maxStatusRetries = 20` status fetches in total, and if every fetch (only
fetches 0..19 are ever consulted) observes an active status the process is
terminated fatally after the 20th fetch — the outcome records exactly 20
fetches, so a 21st is never issued — with a message naming the export
task identifier. -/
theorem C3_backoff_and_budget :
    backoffDelay 0 = 200 ∧
    (∀ k, backoffDelay (k + 1) = min (3 * backoffDelay k) 60000) ∧
    (∀ k, backoffDelay k ≤ 60000) ∧
    maxStatusRetries = 20 ∧
    (∀ active : Nat → Bool, (∀ k, k < maxStatusRetries → active k = true) →
      waitForTaskCompletion active = PollOutcome.fatalExit maxStatusRetries) ∧
    (∀ exportId, ∃ pre post, fatalStillRunningMessage exportId = pre ++ exportId ++ post) := by
  refine ⟨rfl, ?_, ?_, rfl, ?_, ?_⟩
  · intro k
    show min (200 * 3 ^ (k + 1)) 60000 = min (3 * min (200 * 3 ^ k) 60000) 60000
    have hp : 200 * 3 ^ (k + 1) = 3 * (200 * 3 ^ k) := by ring
    rw [hp]
    omega
  · intro k
    exact min_le_right _ _
  · intro active h
    have := runPoll_all_active active maxStatusRetries 0
      (fun k _ hk2 => h k (by omega)) (by norm_num [maxStatusRetries])
    simpa [waitForTaskCompletion, waitOptions] using this
  · intro exportId
    exact ⟨_, _, rfl⟩

/-- Witness for C3 at the concrete always-active status stream: the poller
exits fatally after exactly 20 fetches, and the second delay is 600. -/
theorem C3_backoff_and_budget_witness :
    waitForTaskCompletion (fun _ => true) = PollOutcome.fatalExit 20 ∧
    backoffDelay 1 = 600 := by
  constructor
  · exact C3_backoff_and_budget.2.2.2.2.1 (fun _ => true) (fun k _ => rfl)
  · rw [C3_backoff_and_budget.2.1 0, C3_backoff_and_budget.1]
    decide

/-- Claim C1 (code bug): with the file list `["a.zip", "b.zip"]` and every
download succeeding, `writeExportedData` attempts only `a.zip` — the
`return` inside the loop body exits on the first iteration — so `b.zip`
is never downloaded, contradicting the documented behavior of downloading
every listed file. -/
theorem C1_download_loop_returns_early :
    (writeExportedData (fun _ => true) [str "a.zip", str "b.zip"]).attempted = [str "a.zip"] ∧
    str "b.zip" ∉ (writeExportedData (fun _ => true) [str "a.zip", str "b.zip"]).attempted := by
  decide

/-- Claim C10: both the poller's active/terminal classification and the
orchestrator's dispatch on the final status are invariant under
uppercasing the status string, because both uppercase the status before
comparing. -/
theorem C10_status_case_insensitive (s : JSStr) :
    isActive s = isActive (jsToUpper s) ∧
    dispatchFinalStatus s = dispatchFinalStatus (jsToUpper s) := by
  constructor
  · simp [isActive, jsToUpper_idem]
  · simp [dispatchFinalStatus, jsToUpper_idem]

/-!
## Request signing (ociUtils.js, sign)

The request object is modelled as a descriptor with a header mapping;
`setHeader`/`getHeader` model Node's header dictionary (set replaces any
existing value for the name; get returns the latest). The jsSHA digest
and the RSA signature bytes are opaque to every claim, so they enter the
model as the parameters `shaFn` and `sigVal`; the node http-signature
library (external dependency) is modelled from its documented behavior of
setting the `Authorization` header to
`Signature keyId="...",algorithm="...",headers="...",signature="..."`.
-/

/-- An outgoing HTTP request descriptor. -/
structure Request where
  method : JSStr
  host : JSStr
  path : JSStr
  headers : List (JSStr × JSStr)
  body : Option JSStr
  deriving DecidableEq, Repr

/-- Node header-dictionary lookup: header names are case-insensitive. -/
def getHeader (hs : List (JSStr × JSStr)) (n : JSStr) : Option JSStr :=
  match hs with
  | [] => none
  | (k, v) :: t => if jsToLower k = jsToLower n then some v else getHeader t n

/-- Node `setHeader`: replaces any existing value stored under `n`,
matching the name case-insensitively. -/
def setHeader (hs : List (JSStr × JSStr)) (n v : JSStr) : List (JSStr × JSStr) :=
  (n, v) :: hs.filter (fun p => decide (jsToLower p.1 ≠ jsToLower n))

/-- The credential options `sign` receives (`utils.js` exports plus the
optional request body). -/
structure SignOptions where
  privateKey : JSStr
  keyFingerprint : JSStr
  tenancyId : JSStr
  userId : JSStr
  body : Option JSStr
  deriving DecidableEq, Repr

/-- The base header list `sign` always signs. -/
def baseHeadersToSign : List JSStr :=
  [str "host", str "date", str "(request-target)"]

/-- `methodsThatRequireExtraHeaders` from the source. -/
def methodsThatRequireExtraHeaders : List JSStr :=
  [str "POST", str "PUT", str "PATCH"]

/-- The three headers `sign` appends for body-carrying methods, in the
source's order. -/
def extraHeadersToSign : List JSStr :=
  [str "content-type", str "content-length", str "x-content-sha256"]

/-- Space-join of the signed-header names, as the Authorization header
renders them. -/
def joinSpace : List JSStr → JSStr
  | [] => []
  | [h] => h
  | h :: t => h ++ [' '] ++ joinSpace t

/-- The parameter part of the Authorization header value the
http-signature library produces. -/
def authParams (keyId : JSStr) (headers : List JSStr) (sigVal : JSStr) : JSStr :=
  str "keyId=\"" ++ keyId ++ str "\",algorithm=\"rsa-sha256\",headers=\""
    ++ joinSpace headers ++ str "\",signature=\"" ++ sigVal ++ str "\""

/-- Modelled from the node http-signature library: the Authorization
header value it sets, a literal `Signature ` prefix followed by the
signature parameters. -/
def httpSignatureAuthHeader (keyId : JSStr) (headers : List JSStr) (sigVal : JSStr) : JSStr :=
  str "Signature " ++ authParams keyId headers sigVal

/-- Result of `sign`: the request with its headers updated, plus the
`headersToSign` list handed to `httpSignature.sign`. -/
structure SignResult where
  request : Request
  headersToSign : List JSStr
  deriving DecidableEq, Repr

/-- The tail of `sign`: `httpSignature.sign(request, ...)`. Modelled from
the node http-signature library: when `date` is among the headers to sign
and the request has no Date header yet, the library first sets the Date
header to the RFC-1123 rendering of the current time (abstracted as the
parameter `now`); it then sets the Authorization header. Afterwards the
source rewrites that header by replacing the first occurrence of
`Signature ` with `Signature version="1",`. -/
def finishSign (now sigVal apiKeyId : JSStr) (hts : List JSStr) (r : Request) : SignResult :=
  let hs0 :=
    if str "date" ∈ hts ∧ getHeader r.headers (str "Date") = none then
      setHeader r.headers (str "Date") now
    else r.headers
  let auth := httpSignatureAuthHeader apiKeyId hts sigVal
  let hs2 := setHeader hs0 (str "Authorization") auth
  let newAuth := jsReplaceFirst ((getHeader hs2 (str "Authorization")).getD [])
    (str "Signature ") (str "Signature version=\"1\",")
  { request := { r with headers := setHeader hs2 (str "Authorization") newAuth },
    headersToSign := hts }

/-- `sign` from ociUtils.js. For POST/PUT/PATCH (after uppercasing the
method) it defaults the body to the empty string, sets `Content-Length`
to the body's JS string length and `x-content-sha256` to the digest, and
extends the signed-header list; then it signs (which may set the Date
header, see `finishSign`) and rewrites the Authorization header. -/
def sign (now : JSStr) (shaFn : JSStr → JSStr) (sigVal : JSStr) (request : Request)
    (options : SignOptions) : SignResult :=
  let apiKeyId := options.tenancyId ++ str "/" ++ options.userId ++ str "/" ++ options.keyFingerprint
  if jsToUpper request.method ∈ methodsThatRequireExtraHeaders then
    let body := options.body.getD []
    let hs1 := setHeader request.headers (str "Content-Length") (str (toString (jsStrLength body)))
    let hs2 := setHeader hs1 (str "x-content-sha256") (shaFn body)
    finishSign now sigVal apiKeyId (baseHeadersToSign ++ extraHeadersToSign)
      { request with headers := hs2 }
  else
    finishSign now sigVal apiKeyId baseHeadersToSign request

/-!
## Lemmas about the header dictionary and Authorization rewriting
-/

theorem getHeader_setHeader_same (hs : List (JSStr × JSStr)) (n v : JSStr) :
    getHeader (setHeader hs n v) n = some v := by
  simp [getHeader, setHeader]

theorem getHeader_filter_ne (hs : List (JSStr × JSStr)) (n m : JSStr)
    (h : jsToLower m ≠ jsToLower n) :
    getHeader (hs.filter (fun p => decide (jsToLower p.1 ≠ jsToLower n))) m = getHeader hs m := by
  induction hs with
  | nil => rfl
  | cons a t ih =>
    obtain ⟨k, v⟩ := a
    rw [List.filter_cons]
    by_cases hk : jsToLower k = jsToLower n
    · rw [if_neg (by simp [hk])]
      rw [ih]
      have hkm : ¬ jsToLower k = jsToLower m := fun hc => h (hc.symm.trans hk)
      simp only [getHeader]
      rw [if_neg hkm]
    · rw [if_pos (by simp [hk])]
      simp only [getHeader]
      by_cases hm : jsToLower k = jsToLower m
      · rw [if_pos hm, if_pos hm]
      · rw [if_neg hm, if_neg hm, ih]

theorem getHeader_setHeader_ne (hs : List (JSStr × JSStr)) (n v m : JSStr)
    (h : jsToLower m ≠ jsToLower n) :
    getHeader (setHeader hs n v) m = getHeader hs m := by
  simp only [setHeader, getHeader]
  rw [if_neg (fun hc => h hc.symm)]
  exact getHeader_filter_ne hs n m h

theorem jsReplaceFirst_append (pat t repl : JSStr) :
    jsReplaceFirst (pat ++ t) pat repl = repl ++ t := by
  have hs : isStartOf pat (pat ++ t) = true := (isStartOf_iff pat (pat ++ t)).2 ⟨t, rfl⟩
  cases pat with
  | nil =>
    cases t with
    | nil => simp [jsReplaceFirst, isStartOf]
    | cons c r => simp [jsReplaceFirst, isStartOf]
  | cons p ps =>
    rw [List.cons_append] at hs ⊢
    unfold jsReplaceFirst
    rw [if_pos hs]
    rw [← List.cons_append]
    show repl ++ ((p :: ps) ++ t).drop (p :: ps).length = repl ++ t
    rw [List.drop_left]

theorem finishSign_request_frame (now sigVal apiKeyId : JSStr) (hts : List JSStr) (r : Request) :
    (finishSign now sigVal apiKeyId hts r).request.method = r.method ∧
    (finishSign now sigVal apiKeyId hts r).request.host = r.host ∧
    (finishSign now sigVal apiKeyId hts r).request.path = r.path ∧
    (finishSign now sigVal apiKeyId hts r).request.body = r.body := by
  exact ⟨rfl, rfl, rfl, rfl⟩

theorem finishSign_auth (now sigVal apiKeyId : JSStr) (hts : List JSStr) (r : Request) :
    getHeader (finishSign now sigVal apiKeyId hts r).request.headers (str "Authorization") =
      some (str "Signature version=\"1\"," ++ authParams apiKeyId hts sigVal) := by
  unfold finishSign
  simp only [getHeader_setHeader_same, Option.getD_some, httpSignatureAuthHeader]
  rw [jsReplaceFirst_append]

theorem finishSign_other_headers (now sigVal apiKeyId : JSStr) (hts : List JSStr) (r : Request)
    (n : JSStr) (h1 : jsToLower n ≠ jsToLower (str "Authorization"))
    (h2 : jsToLower n ≠ jsToLower (str "Date")) :
    getHeader (finishSign now sigVal apiKeyId hts r).request.headers n = getHeader r.headers n := by
  unfold finishSign
  simp only []
  rw [getHeader_setHeader_ne _ _ _ _ h1, getHeader_setHeader_ne _ _ _ _ h1]
  by_cases hd : str "date" ∈ hts ∧ getHeader r.headers (str "Date") = none
  · rw [if_pos hd, getHeader_setHeader_ne _ _ _ _ h2]
  · rw [if_neg hd]

theorem finishSign_date_absent (now sigVal apiKeyId : JSStr) (hts : List JSStr) (r : Request)
    (hmem : str "date" ∈ hts) (habs : getHeader r.headers (str "Date") = none) :
    getHeader (finishSign now sigVal apiKeyId hts r).request.headers (str "Date") = some now := by
  unfold finishSign
  simp only []
  rw [getHeader_setHeader_ne _ _ _ _ (by decide), getHeader_setHeader_ne _ _ _ _ (by decide)]
  rw [if_pos ⟨hmem, habs⟩]
  exact getHeader_setHeader_same _ _ _

theorem finishSign_date_present (now sigVal apiKeyId : JSStr) (hts : List JSStr) (r : Request)
    (v : JSStr) (hp : getHeader r.headers (str "Date") = some v) :
    getHeader (finishSign now sigVal apiKeyId hts r).request.headers (str "Date") = some v := by
  unfold finishSign
  simp only []
  rw [getHeader_setHeader_ne _ _ _ _ (by decide), getHeader_setHeader_ne _ _ _ _ (by decide)]
  have hcond : ¬ (str "date" ∈ hts ∧ getHeader r.headers (str "Date") = none) := by
    rintro ⟨-, hn⟩
    rw [hp] at hn
    exact Option.some_ne_none v hn
  rw [if_neg hcond]
  exact hp

/-!
## Example fixtures for the signer claims
-/

/-- A POST request descriptor with no pre-set headers. -/
def exReqPost : Request :=
  { method := str "POST", host := str "example.com", path := str "/api",
    headers := [], body := none }

/-- A GET request descriptor carrying one unrelated header. -/
def exReqGet : Request :=
  { method := str "GET", host := str "example.com", path := str "/api",
    headers := [(str "X-Custom", str "1")], body := none }

/-- A GET request descriptor that already carries a Date header. -/
def exReqDated : Request :=
  { method := str "GET", host := str "example.com", path := str "/api",
    headers := [(str "Date", str "Mon, 01 Feb 2021 00:00:00 GMT")], body := none }

/-- A concrete RFC-1123 timestamp standing for the signing time. -/
def exNow : JSStr := str "Thu, 01 Jan 1970 00:00:00 GMT"

/-- Concrete credentials with an ASCII body. -/
def exOpts : SignOptions :=
  { privateKey := str "key", keyFingerprint := str "fp", tenancyId := str "tid",
    userId := str "uid", body := some (str "body") }

/-- The same credentials with the one-character body `é` (U+00E9), whose
UTF-8 encoding is two bytes while its JS string length is 1. -/
def exOptsUnicode : SignOptions :=
  { privateKey := str "key", keyFingerprint := str "fp", tenancyId := str "tid",
    userId := str "uid", body := some [Char.ofNat 233] }

/-!
## Claim theorems: signer
-/

/-- Claim C4 (corrected), counterexample: for a POST request the
signed-header list is NOT `host, date, (request-target)` followed by
`content-length, x-content-sha256, content-type` — the source appends the
extra headers in the order `content-type, content-length,
x-content-sha256`. -/
theorem C4_counterexample :
    (sign exNow (fun _ => str "digest") (str "sig") exReqPost exOpts).headersToSign ≠
      baseHeadersToSign ++
        [str "content-length", str "x-content-sha256", str "content-type"] := by
  decide

/-- Claim C4 (amended): for every request whose uppercased method is POST,
PUT, or PATCH, the signed-header list is the base three headers `host,
date, (request-target)` followed by `content-type, content-length,
x-content-sha256`, in that order. -/
theorem C4_extra_headers_order (now : JSStr) (shaFn : JSStr → JSStr) (sigVal : JSStr)
    (request : Request) (options : SignOptions)
    (h : jsToUpper request.method ∈ methodsThatRequireExtraHeaders) :
    (sign now shaFn sigVal request options).headersToSign =
      baseHeadersToSign ++
        [str "content-type", str "content-length", str "x-content-sha256"] := by
  simp only [sign]
  rw [if_pos h]
  rfl

/-- Witness for C4 at a concrete POST request. -/
theorem C4_extra_headers_order_witness :
    jsToUpper (str "POST") ∈ methodsThatRequireExtraHeaders ∧
    (sign exNow (fun _ => str "digest") (str "sig") exReqPost exOpts).headersToSign =
      baseHeadersToSign ++
        [str "content-type", str "content-length", str "x-content-sha256"] :=
  ⟨by decide, C4_extra_headers_order exNow (fun _ => str "digest") (str "sig") exReqPost exOpts
    (by decide)⟩

/-- Claim C5 (corrected), counterexample: for a POST request whose body is
the one-character string `é`, signing sets `Content-Length` to `1` (the
JS string length, i.e. UTF-16 code-unit count) although the UTF-8 byte
length of the body is 2 — `options.body.length` in the source counts code
units, not bytes. -/
theorem C5_counterexample :
    getHeader (sign exNow (fun _ => str "digest") (str "sig")
        exReqPost exOptsUnicode).request.headers
        (str "Content-Length") = some (str "1") ∧
    utf8ByteLength [Char.ofNat 233] = 2 ∧
    str "1" ≠ str (toString (utf8ByteLength [Char.ofNat 233])) := by
  decide

/-- Claim C5 (amended): for every request whose uppercased method is POST,
PUT, or PATCH, signing sets the `Content-Length` header to the JS string
length (UTF-16 code-unit count) of the body — which coincides with the
byte length exactly for ASCII bodies — where an absent body is treated as
the empty string, so an absent body yields `Content-Length` 0 and is
still signed as zero-length. -/
theorem C5_content_length (now : JSStr) (shaFn : JSStr → JSStr) (sigVal : JSStr)
    (request : Request) (options : SignOptions)
    (h : jsToUpper request.method ∈ methodsThatRequireExtraHeaders) :
    getHeader (sign now shaFn sigVal request options).request.headers (str "Content-Length") =
      some (str (toString (jsStrLength (options.body.getD [])))) := by
  simp only [sign]
  rw [if_pos h]
  rw [finishSign_other_headers _ _ _ _ _ _ (by decide) (by decide)]
  rw [getHeader_setHeader_ne _ _ _ _ (by decide), getHeader_setHeader_same]

/-- Witness for C5: with no body present, a POST request is signed with
`Content-Length` 0. -/
theorem C5_content_length_witness :
    jsToUpper (str "POST") ∈ methodsThatRequireExtraHeaders ∧
    getHeader (sign exNow (fun _ => str "digest") (str "sig") exReqPost
        { exOpts with body := none }).request.headers (str "Content-Length") =
      some (str "0") :=
  ⟨by decide,
    (C5_content_length exNow (fun _ => str "digest") (str "sig") exReqPost
      { exOpts with body := none } (by decide)).trans (by decide)⟩

/-- Claim C6: for every signed request, the Authorization header value is
the literal `Signature version="1",` followed by the remaining signature
parameters — so it contains `version="1",` immediately after the literal
prefix `Signature `. -/
theorem C6_authorization_version (now : JSStr) (shaFn : JSStr → JSStr) (sigVal : JSStr)
    (request : Request) (options : SignOptions) :
    ∃ rest,
      getHeader (sign now shaFn sigVal request options).request.headers (str "Authorization") =
        some (str "Signature version=\"1\"," ++ rest) := by
  simp only [sign]
  by_cases h : jsToUpper request.method ∈ methodsThatRequireExtraHeaders
  · rw [if_pos h]
    exact ⟨_, finishSign_auth _ _ _ _ _⟩
  · rw [if_neg h]
    exact ⟨_, finishSign_auth _ _ _ _ _⟩

/-- Claim C9 (corrected), counterexample: signing a GET request that has
no Date header also sets the Date header (the http-signature library sets
it because `date` is among the signed headers), so signing does NOT add
only Authorization (plus Content-Length and x-content-sha256 for
body-carrying methods) — a header outside that list changes too. -/
theorem C9_counterexample :
    getHeader exReqGet.headers (str "Date") = none ∧
    getHeader (sign exNow (fun _ => str "digest") (str "sig")
        exReqGet exOpts).request.headers (str "Date") = some exNow := by
  decide

/-- Claim C9 (amended): signing changes only headers — the request's
method, host, path and body are unchanged — and its header effect
(header names compared case-insensitively, as in Node) is exactly:
`Authorization` is always set; `Date` is set to the signing timestamp
exactly when the request lacks a Date header, and keeps its value when
one is present; `Content-Length` and `x-content-sha256` are set exactly
when the uppercased method is POST, PUT, or PATCH (otherwise those two
headers are untouched); every header whose lowercased name is none of
`authorization`, `date`, `content-length`, `x-content-sha256` is
untouched. -/
theorem C9_sign_frame (now : JSStr) (shaFn : JSStr → JSStr) (sigVal : JSStr) (request : Request)
    (options : SignOptions) :
    ((sign now shaFn sigVal request options).request.method = request.method ∧
     (sign now shaFn sigVal request options).request.host = request.host ∧
     (sign now shaFn sigVal request options).request.path = request.path ∧
     (sign now shaFn sigVal request options).request.body = request.body) ∧
    ((getHeader (sign now shaFn sigVal request options).request.headers
        (str "Authorization")).isSome = true) ∧
    (getHeader request.headers (str "Date") = none →
      getHeader (sign now shaFn sigVal request options).request.headers (str "Date") =
        some now) ∧
    (∀ v, getHeader request.headers (str "Date") = some v →
      getHeader (sign now shaFn sigVal request options).request.headers (str "Date") =
        some v) ∧
    (jsToUpper request.method ∈ methodsThatRequireExtraHeaders →
      getHeader (sign now shaFn sigVal request options).request.headers (str "Content-Length") =
          some (str (toString (jsStrLength (options.body.getD [])))) ∧
      getHeader (sign now shaFn sigVal request options).request.headers (str "x-content-sha256") =
          some (shaFn (options.body.getD []))) ∧
    (jsToUpper request.method ∉ methodsThatRequireExtraHeaders →
      getHeader (sign now shaFn sigVal request options).request.headers (str "Content-Length") =
          getHeader request.headers (str "Content-Length") ∧
      getHeader (sign now shaFn sigVal request options).request.headers (str "x-content-sha256") =
          getHeader request.headers (str "x-content-sha256")) ∧
    (∀ n : JSStr, jsToLower n ≠ jsToLower (str "Authorization") →
      jsToLower n ≠ jsToLower (str "Date") →
      jsToLower n ≠ jsToLower (str "Content-Length") →
      jsToLower n ≠ jsToLower (str "x-content-sha256") →
      getHeader (sign now shaFn sigVal request options).request.headers n =
        getHeader request.headers n) := by
  by_cases h : jsToUpper request.method ∈ methodsThatRequireExtraHeaders
  · refine ⟨?_, ?_, ?_, ?_, fun _ => ⟨?_, ?_⟩, fun hn => absurd h hn,
      fun n h1 h2 h3 h4 => ?_⟩
    · simp only [sign]
      rw [if_pos h]
      exact ⟨rfl, rfl, rfl, rfl⟩
    · simp only [sign]
      rw [if_pos h, finishSign_auth]
      rfl
    · intro habs
      simp only [sign]
      rw [if_pos h]
      refine finishSign_date_absent _ _ _ _ _ (by decide) ?_
      show getHeader (setHeader _ (str "x-content-sha256") _) (str "Date") = none
      rw [getHeader_setHeader_ne _ _ _ _ (by decide),
        getHeader_setHeader_ne _ _ _ _ (by decide)]
      exact habs
    · intro v hp
      simp only [sign]
      rw [if_pos h]
      refine finishSign_date_present _ _ _ _ _ _ ?_
      show getHeader (setHeader _ (str "x-content-sha256") _) (str "Date") = some v
      rw [getHeader_setHeader_ne _ _ _ _ (by decide),
        getHeader_setHeader_ne _ _ _ _ (by decide)]
      exact hp
    · exact C5_content_length now shaFn sigVal request options h
    · simp only [sign]
      rw [if_pos h]
      rw [finishSign_other_headers _ _ _ _ _ _ (by decide) (by decide)]
      exact getHeader_setHeader_same _ _ _
    · simp only [sign]
      rw [if_pos h]
      rw [finishSign_other_headers _ _ _ _ _ _ h1 h2]
      rw [getHeader_setHeader_ne _ _ _ _ h4, getHeader_setHeader_ne _ _ _ _ h3]
  · refine ⟨?_, ?_, ?_, ?_, fun hn => absurd hn h, fun _ => ⟨?_, ?_⟩,
      fun n h1 h2 h3 h4 => ?_⟩
    · simp only [sign]
      rw [if_neg h]
      exact ⟨rfl, rfl, rfl, rfl⟩
    · simp only [sign]
      rw [if_neg h, finishSign_auth]
      rfl
    · intro habs
      simp only [sign]
      rw [if_neg h]
      exact finishSign_date_absent _ _ _ _ _ (by decide) habs
    · intro v hp
      simp only [sign]
      rw [if_neg h]
      exact finishSign_date_present _ _ _ _ _ _ hp
    · simp only [sign]
      rw [if_neg h]
      exact finishSign_other_headers _ _ _ _ _ _ (by decide) (by decide)
    · simp only [sign]
      rw [if_neg h]
      exact finishSign_other_headers _ _ _ _ _ _ (by decide) (by decide)
    · simp only [sign]
      rw [if_neg h]
      exact finishSign_other_headers _ _ _ _ _ _ h1 h2

/-!
## Transport file variant (ociUtils.js, promisifiedWriteZipResponse)

The HTTPS response is modelled by its status line, content type and the
sequence of data chunks delivered by the `data` events, in order. The
handler appends each chunk to `responseBody` AND writes it to the
destination file's write stream as it arrives; on `end` it resolves with
the accumulated body (JSON-parsed when the content type is
`application/json`) for status codes below 300, and rejects otherwise.
`JSON.parse` is opaque to every claim, so a parsed body is represented by
the constructor `jsonParsed` applied to the raw text.
-/

/-- An HTTPS response as seen by the handler. -/
structure ZipResponse where
  statusCode : Nat
  statusMessage : JSStr
  contentType : JSStr
  chunks : List JSStr
  deriving DecidableEq, Repr

/-- The value a successful transport promise resolves with. -/
inductive ResolvedValue where
  | jsonParsed (raw : JSStr)
  | text (raw : JSStr)
  deriving DecidableEq, Repr

/-- The error a failed transport promise rejects with: the
`status: title: detail` form extracted from a JSON error body, or the
`statusCode: statusMessage` form otherwise. -/
inductive RejectReason where
  | structured (raw : JSStr)
  | plain (statusCode : Nat) (statusMessage : JSStr)
  deriving DecidableEq, Repr

/-- How the transport promise settles. -/
inductive PromiseSettle where
  | resolved (v : ResolvedValue)
  | rejected (e : RejectReason)
  deriving DecidableEq, Repr

/-- Result of one run of `promisifiedWriteZipResponse`: how the promise
settles, and the sequence of writes issued to the destination file's
stream. -/
structure ZipRunResult where
  outcome : PromiseSettle
  fileWrites : List JSStr
  deriving DecidableEq, Repr

/-- `promisifiedWriteZipResponse` from ociUtils.js, as a function of the
response it receives. -/
def promisifiedWriteZipResponse (resp : ZipResponse) : ZipRunResult :=
  let responseBody := resp.chunks.foldl (fun a c => a ++ c) []
  { outcome :=
      if resp.statusCode < 300 then
        if resp.contentType = str "application/json" then
          PromiseSettle.resolved (ResolvedValue.jsonParsed responseBody)
        else PromiseSettle.resolved (ResolvedValue.text responseBody)
      else
        if resp.contentType = str "application/json" then
          PromiseSettle.rejected (RejectReason.structured responseBody)
        else PromiseSettle.rejected (RejectReason.plain resp.statusCode resp.statusMessage),
    fileWrites := resp.chunks }

/-- A 200 response delivering the single chunk `abc` with a non-JSON
content type. -/
def exZipResp : ZipResponse :=
  { statusCode := 200, statusMessage := str "OK",
    contentType := str "application/zip", chunks := [str "abc"] }

/-- Claim C7 (corrected), counterexample: for a 200 response with body
`abc`, `promisifiedWriteZipResponse` resolves with the response content
`abc` itself — not with the count of bytes written (3), in any
rendering. -/
theorem C7_counterexample :
    (promisifiedWriteZipResponse exZipResp).outcome =
      PromiseSettle.resolved (ResolvedValue.text (str "abc")) ∧
    utf8ByteLength (str "abc") = 3 ∧
    str "abc" ≠ str (toString (utf8ByteLength (str "abc"))) := by
  decide

/-- Claim C7 (amended): for every response with status code below 300,
`promisifiedWriteZipResponse` resolves with the accumulated response
content (JSON-parsed when the content type is `application/json`), that
content is exactly the concatenation of the writes issued to the
destination file, and those writes are exactly the response's chunks in
arrival order — each chunk is written to the file as it arrives, rather
than the payload being written only after it has been fully buffered. -/
theorem C7_zip_streams_and_resolves_content (resp : ZipResponse) (h : resp.statusCode < 300) :
    (∃ raw,
      ((promisifiedWriteZipResponse resp).outcome =
          PromiseSettle.resolved (ResolvedValue.jsonParsed raw) ∨
       (promisifiedWriteZipResponse resp).outcome =
          PromiseSettle.resolved (ResolvedValue.text raw)) ∧
      raw = (promisifiedWriteZipResponse resp).fileWrites.foldl (fun a c => a ++ c) []) ∧
    (promisifiedWriteZipResponse resp).fileWrites = resp.chunks := by
  refine ⟨⟨resp.chunks.foldl (fun a c => a ++ c) [], ?_, rfl⟩, rfl⟩
  by_cases hj : resp.contentType = str "application/json"
  · left
    simp [promisifiedWriteZipResponse, h, hj]
  · right
    simp [promisifiedWriteZipResponse, h, hj]

/-- Witness for C7 at the concrete 200 response `exZipResp`. -/
theorem C7_zip_streams_witness :
    (∃ raw,
      ((promisifiedWriteZipResponse exZipResp).outcome =
          PromiseSettle.resolved (ResolvedValue.jsonParsed raw) ∨
       (promisifiedWriteZipResponse exZipResp).outcome =
          PromiseSettle.resolved (ResolvedValue.text raw)) ∧
      raw = (promisifiedWriteZipResponse exZipResp).fileWrites.foldl (fun a c => a ++ c) []) ∧
    (promisifiedWriteZipResponse exZipResp).fileWrites = exZipResp.chunks :=
  C7_zip_streams_and_resolves_content exZipResp (by decide)

/-!
## Date validation (export-da-insights.js, isDateValid)

`isDateValid` accepts an absent or empty date outright; otherwise it
first tests the regular expression `^\d\d\d\d-[0-1]\d-[0-3]\d$` and then
rejects exactly when `new Date(date).getTime()` is NaN. `new Date` on a
`YYYY-MM-DD` string is the ECMAScript date-only ISO parse (external
builtin), modelled below: the result is valid exactly when the month is
1..12 and the day is 1..(days in that month).
-/

/-- ASCII digit test (the regex class `\d`). -/
def isDigitCh (c : Char) : Bool := decide (48 ≤ c.toNat ∧ c.toNat ≤ 57)

/-- Numeric value of an ASCII digit. -/
def digitVal (c : Char) : Nat := c.toNat - 48

/-- The test of the regex `^\d\d\d\d-[0-1]\d-[0-3]\d$`. -/
def dateFormatTest : JSStr → Bool
  | [y1, y2, y3, y4, h1, m1, m2, h2, d1, d2] =>
    isDigitCh y1 && isDigitCh y2 && isDigitCh y3 && isDigitCh y4 &&
    decide (h1 = '-') && decide (48 ≤ m1.toNat ∧ m1.toNat ≤ 49) && isDigitCh m2 &&
    decide (h2 = '-') && decide (48 ≤ d1.toNat ∧ d1.toNat ≤ 51) && isDigitCh d2
  | _ => false

/-- Gregorian leap-year rule, as ECMAScript time arithmetic uses. -/
def isLeapYear (y : Nat) : Bool :=
  decide ((y % 4 = 0 ∧ y % 100 ≠ 0) ∨ y % 400 = 0)

/-- Days in a month of the proleptic Gregorian calendar. -/
def daysInMonth (y m : Nat) : Nat :=
  if m = 1 ∨ m = 3 ∨ m = 5 ∨ m = 7 ∨ m = 8 ∨ m = 10 ∨ m = 12 then 31
  else if m = 4 ∨ m = 6 ∨ m = 9 ∨ m = 11 then 30
  else if m = 2 then (if isLeapYear y then 29 else 28)
  else 0

/-- Modelled from the ECMAScript `Date` constructor on a date-only
`YYYY-MM-DD` string (external builtin): `getTime()` is NaN — the date is
invalid — unless the month is 1..12 and the day is within the month. -/
def jsDateParseValid : JSStr → Bool
  | [y1, y2, y3, y4, _, m1, m2, _, d1, d2] =>
    let y := ((digitVal y1 * 10 + digitVal y2) * 10 + digitVal y3) * 10 + digitVal y4
    let m := digitVal m1 * 10 + digitVal m2
    let d := digitVal d1 * 10 + digitVal d2
    decide (1 ≤ m ∧ m ≤ 12 ∧ 1 ≤ d ∧ d ≤ daysInMonth y m)
  | _ => false

/-- `isDateValid` from export-da-insights.js: `ty` is the label used only
in the printed message; an undefined or empty date is accepted; otherwise
the date must match the format regex and parse to a real date. -/
def isDateValid (_ty : JSStr) (date : Option JSStr) : Bool :=
  match date with
  | none => true
  | some d =>
    if d.length = 0 then true
    else if ¬ dateFormatTest d = true then false
    else jsDateParseValid d

/-- Claim C8: the date validator rejects `2024-13-01` (the regex passes —
`1` then digit — but month 13 makes the parsed date invalid), rejects
`20240101` (regex fails), and accepts `2024-01-31`. -/
theorem C8_date_validator :
    isDateValid (str "begin") (some (str "2024-13-01")) = false ∧
    isDateValid (str "begin") (some (str "20240101")) = false ∧
    isDateValid (str "begin") (some (str "2024-01-31")) = true := by
  decide

/-- Witness for C9: at a concrete POST request the Content-Length header
is set to the body's length; at a concrete GET request without a Date
header the Date header is set to the signing timestamp, while a concrete
GET request with a Date header keeps it; Content-Length stays untouched
(absent) on the GET request and an unrelated header keeps its value. -/
theorem C9_sign_frame_witness :
    getHeader (sign exNow (fun _ => str "digest") (str "sig") exReqPost exOpts).request.headers
        (str "Content-Length") = some (str "4") ∧
    getHeader (sign exNow (fun _ => str "digest") (str "sig") exReqGet exOpts).request.headers
        (str "Date") = some exNow ∧
    getHeader (sign exNow (fun _ => str "digest") (str "sig") exReqDated exOpts).request.headers
        (str "Date") = some (str "Mon, 01 Feb 2021 00:00:00 GMT") ∧
    getHeader (sign exNow (fun _ => str "digest") (str "sig") exReqGet exOpts).request.headers
        (str "Content-Length") = none ∧
    getHeader (sign exNow (fun _ => str "digest") (str "sig") exReqGet exOpts).request.headers
        (str "X-Custom") = some (str "1") := by
  refine ⟨?_, ?_, ?_, ?_, ?_⟩
  · exact (((C9_sign_frame exNow (fun _ => str "digest") (str "sig") exReqPost
      exOpts).2.2.2.2.1 (by decide)).1).trans (by decide)
  · exact (C9_sign_frame exNow (fun _ => str "digest") (str "sig") exReqGet
      exOpts).2.2.1 (by decide)
  · exact (C9_sign_frame exNow (fun _ => str "digest") (str "sig") exReqDated
      exOpts).2.2.2.1 (str "Mon, 01 Feb 2021 00:00:00 GMT") (by decide)
  · exact (((C9_sign_frame exNow (fun _ => str "digest") (str "sig") exReqGet
      exOpts).2.2.2.2.2.1 (by decide)).1).trans (by decide)
  · exact ((C9_sign_frame exNow (fun _ => str "digest") (str "sig") exReqGet
      exOpts).2.2.2.2.2.2 (str "X-Custom") (by decide) (by decide) (by decide)
      (by decide)).trans (by decide)
